import Mathlib

/-!
Shallow embedding of the ToadTools `check_urls` pipeline
(`generate_names.py`, `utilities.py`, `godaddy.py`, `github.py`).

Pure helpers become Lean functions; the HTTP transport is passed in
explicitly (per-attempt for the GoDaddy checker, per-username for the
GitHub checker).  A network-level exception raised by `requests.get` is
modelled with `Except.error`, so a function that does not catch it
returns `Except.error` (the exception propagates), while a function that
catches it keeps a plain return type.  Observable effects that the
claims talk about (cooldown sleeps, attempts issued) are counted
explicitly in the returned trace.
-/

/-- From `generate_names.py`, `concatenate_string_lists`:
`return [a + b for a in list_a for b in list_b]`. -/
def concatenate_string_lists (list_a list_b : List String) : List String :=
  (list_a.map (fun a => list_b.map (fun b => a ++ b))).flatten

/-- From `utilities.py`, `combine_lists`:
`unique_items = set(chain(*lists)); return sorted(unique_items)`.
`chain(*lists)` is `flatten`, the `set` removes duplicates, and `sorted`
arranges the distinct strings in ascending lexicographic order (Python
compares strings lexicographically by code point, as Lean's `String`
order does). -/
def combine_lists (lists : List (List String)) : List String :=
  List.insertionSort (fun a b => a ≤ b) lists.flatten.dedup

/-- A persisted result record, from the dicts handled by
`utilities.py`, `save_results_to_json`: a `'name'` identity field plus
the remaining (string-keyed, boolean-valued) fields of the dict. -/
structure CheckRecord where
  name : String
  fields : List (String × Bool)
  deriving DecidableEq, Repr

/-- Setting one key of a Python dict: overwrite the value if the key is
present (keeping its position), otherwise append the new key at the
end. -/
def set_field (d : List (String × Bool)) (k : String) (v : Bool) : List (String × Bool) :=
  if d.any (fun p => p.1 = k) then
    d.map (fun p => if p.1 = k then (k, v) else p)
  else
    d ++ [(k, v)]

/-- Python's `existing_item.update(item)` on the non-`'name'` fields:
each incoming key is set in the existing dict in order. -/
def dict_update (old incoming : List (String × Bool)) : List (String × Bool) :=
  incoming.foldl (fun d p => set_field d p.1 p.2) old

/-- The inner `for existing_item in existing_data: ... break / else:
append` loop of `save_results_to_json`, for one incoming `item`: the
first existing record with the same `'name'` is updated in place
(`existing_item.update(item)`); if none matches, `item` is appended. -/
def upsert_record : List CheckRecord → CheckRecord → List CheckRecord
  | [], item => [item]
  | existing :: rest, item =>
    if existing.name = item.name then
      ⟨existing.name, dict_update existing.fields item.fields⟩ :: rest
    else
      existing :: upsert_record rest item

/-- From `utilities.py`, `save_results_to_json`: the file is read
(`FileNotFoundError` is caught and gives `existing_data = []`, modelled
by `none`), each incoming record is upserted in order, and the merged
collection is written back (the function's value). -/
def save_results_to_json (file_contents : Option (List CheckRecord))
    (data : List CheckRecord) : List CheckRecord :=
  let existing_data :=
    match file_contents with
    | none => []
    | some records => records
  data.foldl upsert_record existing_data

/-- The merge key invariant the spec talks about: the `'name'` fields of
the records are pairwise distinct. -/
def unique_names (records : List CheckRecord) : Prop :=
  (records.map CheckRecord.name).Nodup

instance (records : List CheckRecord) : Decidable (unique_names records) := by
  unfold unique_names
  infer_instance

/-- An HTTP response as `check_godaddy_domain` consumes it: the status
code, the body text (scanned for the rate-limit token), and the
availability boolean of the parsed JSON body (only read on status
200). -/
structure HttpResponse where
  status : Nat
  text : String
  available : Bool
  deriving DecidableEq, Repr

/-- Whether `needle` is an initial segment of `hay` (character lists). -/
def starts_with_chars : List Char → List Char → Bool
  | [], _ => true
  | _ :: _, [] => false
  | a :: needle, b :: hay => a = b && starts_with_chars needle hay

/-- Whether `needle` occurs contiguously inside `hay` (character
lists); Python's `needle in text` on strings. -/
def contains_chars (needle : List Char) : List Char → Bool
  | [] => needle.isEmpty
  | c :: rest => starts_with_chars needle (c :: rest) || contains_chars needle rest

/-- `'TOO_MANY_REQUESTS' in response.text`, the rate-limit signal of
`check_godaddy_domain`. -/
def contains_too_many_requests (text : String) : Bool :=
  contains_chars "TOO_MANY_REQUESTS".toList text.toList

/-- Why a GoDaddy check ended without an availability answer: a
non-200, non-rate-limit response (the `else` branch that prints
`ERROR: {status_code} -> {text}` and returns), or exhaustion of the
retry loop (the final `ERROR: Failed to fetch data after {max_retries}
retries.`). -/
inductive FailureReason where
  | rejected (status : Nat) (text : String)
  | maxRetriesExceeded
  deriving DecidableEq, Repr

/-- Terminal outcome of one domain check. -/
inductive GoOutcome where
  | success (available : Bool)
  | failure (reason : FailureReason)
  deriving DecidableEq, Repr

/-- Trace of one `check_godaddy_domain` call: its terminal outcome, the
number of 30-second cooldown sleeps performed, and the number of HTTP
requests issued. -/
structure CheckTrace where
  outcome : GoOutcome
  waits : Nat
  attempts : Nat
  deriving DecidableEq, Repr

/-- The `for _ in range(max_retries)` loop of `check_godaddy_domain`.
`transport i` is the result of the `requests.get` of attempt `i`; the
code does not catch exceptions, so `Except.error` propagates.  A 200
response returns `data['available']`; a body containing
`TOO_MANY_REQUESTS` sleeps 30 seconds and retries; any other response
returns immediately; an exhausted loop reports failure. -/
def godaddy_attempts (transport : Nat → Except String HttpResponse) :
    Nat → Nat → Nat → Nat → Except String CheckTrace
  | 0, _, waits, attempts =>
    Except.ok ⟨GoOutcome.failure FailureReason.maxRetriesExceeded, waits, attempts⟩
  | fuel + 1, idx, waits, attempts =>
    match transport idx with
    | Except.error e => Except.error e
    | Except.ok response =>
      if response.status = 200 then
        Except.ok ⟨GoOutcome.success response.available, waits, attempts + 1⟩
      else if contains_too_many_requests response.text then
        godaddy_attempts transport fuel (idx + 1) (waits + 1) (attempts + 1)
      else
        Except.ok ⟨GoOutcome.failure (FailureReason.rejected response.status response.text),
          waits, attempts + 1⟩

/-- From `godaddy.py`, `check_godaddy_domain`, with the configured
`max_retries` and the per-attempt transport passed explicitly. -/
def check_godaddy_domain (transport : Nat → Except String HttpResponse)
    (max_retries : Nat) : Except String CheckTrace :=
  godaddy_attempts transport max_retries 0 0 0

/-- From `godaddy.py`, `get_domain_list`: `None` endings default to
`['com']`, then `f"{host}.{ending}"` for each host and each ending
(outer loop over hosts, inner over endings). -/
def get_domain_list (host_names : List String)
    (domain_endings : Option (List String)) : List String :=
  let endings :=
    match domain_endings with
    | none => ["com"]
    | some es => es
  (host_names.map (fun host => endings.map (fun ending => host ++ "." ++ ending))).flatten

/-- From `godaddy.py`, `create_batches`: `for i in range(0, len(items),
batch_size): batches.append(items[i:i + batch_size])`.  With
`batch_size = 0` Python's `range` raises `ValueError`; that case is
modelled as producing no batches and is excluded by the hypotheses of
every theorem below. -/
def create_batches : List String → Nat → List (List String)
  | _, 0 => []
  | [], _ + 1 => []
  | a :: items, batch_size + 1 =>
    ((a :: items).take (batch_size + 1)) ::
      create_batches ((a :: items).drop (batch_size + 1)) (batch_size + 1)
  termination_by items _ => items.length
  decreasing_by
    simp [List.length_drop]
    omega

/-- From `godaddy.py`, `check_domain_list`: one `check_godaddy_domain`
per domain of the batch, in order, collecting each domain's outcome.
The loop body catches nothing, so a transport exception propagates and
the whole call aborts with no results. -/
def check_domain_list (transport : String → Nat → Except String HttpResponse)
    (max_retries : Nat) : List String → Except String (List (String × GoOutcome))
  | [] => Except.ok []
  | domain :: rest =>
    match check_godaddy_domain (transport domain) max_retries with
    | Except.error e => Except.error e
    | Except.ok trace =>
      match check_domain_list transport max_retries rest with
      | Except.error e => Except.error e
      | Except.ok tail => Except.ok ((domain, trace.outcome) :: tail)

/-- The candidate-preparation part of `godaddy.py`'s `main`:
`_domain_endings = domain_endings or ['com']` (so `None` and the empty
list both default to `['com']`), then `host_names = host_names[:limit]`
when a limit is given, then `get_domain_list`. -/
def main_check_list (host_names : List String)
    (domain_endings : Option (List String)) (limit : Option Nat) : List String :=
  let eff_endings :=
    match domain_endings with
    | none => ["com"]
    | some es => if es.isEmpty then ["com"] else es
  let hosts :=
    match limit with
    | none => host_names
    | some l => host_names.take l
  get_domain_list hosts (some eff_endings)

/-- The batching step of `godaddy.py`'s `main`:
`create_batches(items=get_domain_list(host_names, _domain_endings),
batch_size=_batch_size)` after the `limit` truncation. -/
def main_batches (host_names : List String) (domain_endings : Option (List String))
    (batch_size : Nat) (limit : Option Nat) : List (List String) :=
  create_batches (main_check_list host_names domain_endings limit) batch_size

/-- What one GitHub lookup's `requests.get` produced: a response, or a
raised exception. -/
inductive GithubTransport where
  | response (status : Nat) (text : String)
  | exn (message : String)
  deriving DecidableEq, Repr

/-- From `github.py`, `check_github_username`: the whole request and
status dispatch sit inside `try/except Exception`, so an exception is
caught and the function returns `False`; 404 means available, 200 means
taken, anything else prints the error and returns `False`. -/
def check_github_username (result : GithubTransport) : Bool :=
  match result with
  | GithubTransport.exn _ => false
  | GithubTransport.response status _ =>
    if status = 404 then true
    else if status = 200 then false
    else false

/-- From `github.py`, `check_username_list`: one availability check per
username of the batch, each result recorded with its username. -/
def check_username_list (transport : String → GithubTransport)
    (batch : List String) : List (String × Bool) :=
  batch.map (fun username => (username, check_github_username (transport username)))

theorem create_batches_flatten : ∀ (items : List String) (batch_size : Nat), 0 < batch_size →
    (create_batches items batch_size).flatten = items := by
  intro items batch_size
  induction items, batch_size using create_batches.induct with
  | case1 items => exact fun h => absurd h (lt_irrefl 0)
  | case2 bs => intro _; simp [create_batches]
  | case3 a items bs ih =>
    intro h
    rw [create_batches]
    simp only [List.flatten_cons]
    rw [ih (Nat.succ_pos bs)]
    exact List.take_append_drop _ _

theorem create_batches_mem : ∀ (items : List String) (bs : Nat), 0 < bs →
    ∀ b ∈ create_batches items bs, b ≠ [] ∧ b.length ≤ bs := by
  intro items bs
  induction items, bs using create_batches.induct with
  | case1 items => exact fun h => absurd h (lt_irrefl 0)
  | case2 bs => intro _ b hb; simp [create_batches] at hb
  | case3 a items bs ih =>
    intro _ b hb
    rw [create_batches] at hb
    rcases List.mem_cons.mp hb with rfl | hb
    · refine ⟨by simp, ?_⟩
      simp [List.length_take]
    · exact ih (Nat.succ_pos bs) b hb

theorem create_batches_dropLast : ∀ (items : List String) (bs : Nat), 0 < bs →
    ∀ b ∈ (create_batches items bs).dropLast, b.length = bs := by
  intro items bs
  induction items, bs using create_batches.induct with
  | case1 items => exact fun h => absurd h (lt_irrefl 0)
  | case2 bs => intro _ b hb; simp [create_batches] at hb
  | case3 a items bs ih =>
    intro _ b hb
    rw [create_batches] at hb
    rcases hrest : create_batches ((a :: items).drop (bs + 1)) (bs + 1) with _ | ⟨r, rs⟩
    · rw [hrest] at hb
      simp at hb
    · rw [hrest, List.dropLast_cons₂] at hb
      rcases List.mem_cons.mp hb with rfl | hb2
      · have hd : (a :: items).drop (bs + 1) ≠ [] := by
          intro hnil
          rw [hnil] at hrest
          simp [create_batches] at hrest
        have hlen : ¬ ((a :: items).length ≤ bs + 1) := by
          intro hle
          exact hd (List.drop_eq_nil_of_le hle)
        simp only [List.length_take, List.length_cons] at hlen ⊢
        omega
      · refine ih (Nat.succ_pos bs) b ?_
        rw [hrest]
        exact hb2

theorem upsert_record_names (store : List CheckRecord) (item : CheckRecord) :
    (upsert_record store item).map CheckRecord.name =
      if item.name ∈ store.map CheckRecord.name then store.map CheckRecord.name
      else store.map CheckRecord.name ++ [item.name] := by
  induction store with
  | nil => simp [upsert_record]
  | cons existing rest ih =>
    simp only [upsert_record]
    by_cases h : existing.name = item.name
    · rw [if_pos h]
      simp [List.mem_cons, ← h]
    · rw [if_neg h]
      simp only [List.map_cons, ih]
      have hne : item.name ≠ existing.name := fun e => h e.symm
      by_cases hmem : item.name ∈ rest.map CheckRecord.name
      · simp [hmem, hne]
      · simp [hmem, hne]

theorem unique_names_upsert (store : List CheckRecord) (item : CheckRecord)
    (h : unique_names store) : unique_names (upsert_record store item) := by
  unfold unique_names at h ⊢
  rw [upsert_record_names]
  by_cases hmem : item.name ∈ store.map CheckRecord.name
  · rwa [if_pos hmem]
  · rw [if_neg hmem]
    refine List.Nodup.append h (List.nodup_singleton _) ?_
    intro x hx hx'
    rw [List.mem_singleton] at hx'
    exact hmem (hx' ▸ hx)

theorem unique_names_save (data : List CheckRecord) : ∀ store : List CheckRecord,
    unique_names store → unique_names (save_results_to_json (some store) data) := by
  induction data with
  | nil => exact fun store h => h
  | cons d rest ih =>
    intro store h
    have step : save_results_to_json (some store) (d :: rest)
        = save_results_to_json (some (upsert_record store d)) rest := rfl
    rw [step]
    exact ih _ (unique_names_upsert store d h)

theorem upsert_record_not_mem (store : List CheckRecord) (item : CheckRecord)
    (h : item.name ∉ store.map CheckRecord.name) :
    upsert_record store item = store ++ [item] := by
  induction store with
  | nil => rfl
  | cons existing rest ih =>
    simp only [List.map_cons, List.mem_cons] at h
    push_neg at h
    simp only [upsert_record]
    rw [if_neg (fun e => h.1 e.symm), ih h.2]
    rfl

theorem save_append_of_unique (data : List CheckRecord) : ∀ store : List CheckRecord,
    unique_names (store ++ data) → save_results_to_json (some store) data = store ++ data := by
  induction data with
  | nil => intro store _; simp [save_results_to_json]
  | cons d rest ih =>
    intro store h
    have hnot : d.name ∉ store.map CheckRecord.name := by
      unfold unique_names at h
      rw [List.map_append] at h
      have hd := (List.nodup_append.mp h).2.2
      intro hmem
      exact hd hmem (by simp)
    have step : save_results_to_json (some store) (d :: rest)
        = save_results_to_json (some (upsert_record store d)) rest := rfl
    rw [step, upsert_record_not_mem store d hnot,
      ih (store ++ [d]) (by rw [List.append_assoc]; exact h)]
    simp

theorem godaddy_attempts_ok (transport : Nat → Except String HttpResponse)
    (hok : ∀ n, ∃ r, transport n = Except.ok r) :
    ∀ (fuel idx waits attempts : Nat), ∃ t,
      godaddy_attempts transport fuel idx waits attempts = Except.ok t := by
  intro fuel
  induction fuel with
  | zero => exact fun idx waits attempts => ⟨_, rfl⟩
  | succ fuel ih =>
    intro idx waits attempts
    obtain ⟨r, hr⟩ := hok idx
    simp only [godaddy_attempts, hr]
    by_cases h200 : r.status = 200
    · rw [if_pos h200]
      exact ⟨_, rfl⟩
    · rw [if_neg h200]
      by_cases hrl : contains_too_many_requests r.text = true
      · rw [if_pos hrl]
        exact ih _ _ _
      · rw [if_neg hrl]
        exact ⟨_, rfl⟩

theorem check_domain_list_ok (transport : String → Nat → Except String HttpResponse)
    (max_retries : Nat)
    (hok : ∀ domain n, ∃ r, transport domain n = Except.ok r) :
    ∀ batch : List String, ∃ results,
      check_domain_list transport max_retries batch = Except.ok results ∧
      results.map Prod.fst = batch := by
  intro batch
  induction batch with
  | nil => exact ⟨[], rfl, rfl⟩
  | cons domain rest ih =>
    obtain ⟨t, ht⟩ := godaddy_attempts_ok (transport domain) (hok domain) max_retries 0 0 0
    obtain ⟨tail, htail, hmap⟩ := ih
    refine ⟨(domain, t.outcome) :: tail, ?_, ?_⟩
    · simp only [check_domain_list, check_godaddy_domain, ht, htail]
    · simp [hmap]

theorem get_domain_list_length (host_names endings : List String) :
    (get_domain_list host_names (some endings)).length
      = host_names.length * endings.length := by
  induction host_names with
  | nil => simp [get_domain_list]
  | cons h t ih =>
    have step : get_domain_list (h :: t) (some endings)
        = (endings.map (fun e => h ++ "." ++ e)) ++ get_domain_list t (some endings) := rfl
    rw [step, List.length_append, List.length_map, ih, List.length_cons]
    ring

/-- C1 counterexample: with Start pool `["Red", "Blue"]` and End pool
`["Fox", "Red"]`, the candidate `"RedRed"` — formed from the pair where
the start string equals the end string — IS generated by
`concatenate_string_lists`, contrary to the claimed no-self-pair
invariant. -/
theorem c1_self_pair_generated :
    "RedRed" ∈ concatenate_string_lists ["Red", "Blue"] ["Fox", "Red"] := by
  decide

/-- C1 (amended): candidate generation is the full cross product — a
string is a generated candidate exactly when it is `a ++ b` for some
`a` in the start pool and some `b` in the end pool, with no exclusion
of pairs where the two source strings are equal. -/
theorem c1_cross_product (list_a list_b : List String) (c : String) :
    c ∈ concatenate_string_lists list_a list_b
      ↔ ∃ a ∈ list_a, ∃ b ∈ list_b, c = a ++ b := by
  simp only [concatenate_string_lists, List.mem_flatten, List.mem_map]
  constructor
  · rintro ⟨l, ⟨a, ha, rfl⟩, hc⟩
    obtain ⟨b, hb, rfl⟩ := List.mem_map.mp hc
    exact ⟨a, ha, b, hb, rfl⟩
  · rintro ⟨a, ha, b, hb, rfl⟩
    exact ⟨list_b.map (fun b => a ++ b), ⟨a, ha, rfl⟩, List.mem_map_of_mem _ hb⟩

theorem c1_cross_product_witness :
    "BlueRed" ∈ concatenate_string_lists ["Red", "Blue"] ["Fox", "Red"]
      ↔ ∃ a ∈ ["Red", "Blue"], ∃ b ∈ ["Fox", "Red"], "BlueRed" = a ++ b :=
  c1_cross_product ["Red", "Blue"] ["Fox", "Red"] "BlueRed"

/-- C2: with a mocked transport that is rate limited on the first two
attempts and succeeds with availability `b` on the third, and
`max_retries = 5`, the check returns the success outcome after exactly
2 cooldown waits (and 3 requests); with `max_retries = 1` and every
response rate limited, it returns the max-retries-exceeded failure
after exactly 1 cooldown wait. -/
theorem c2_retry_backoff (b : Bool) :
    check_godaddy_domain
        (fun n => Except.ok
          (if n < 2 then ⟨429, "TOO_MANY_REQUESTS", false⟩ else ⟨200, "", b⟩)) 5
      = Except.ok ⟨GoOutcome.success b, 2, 3⟩
    ∧ check_godaddy_domain (fun _ => Except.ok ⟨429, "TOO_MANY_REQUESTS", false⟩) 1
      = Except.ok ⟨GoOutcome.failure FailureReason.maxRetriesExceeded, 1, 1⟩ := by
  cases b <;> exact ⟨rfl, rfl⟩

theorem c2_retry_backoff_witness :
    check_godaddy_domain
        (fun n => Except.ok
          (if n < 2 then ⟨429, "TOO_MANY_REQUESTS", false⟩ else ⟨200, "", true⟩)) 5
      = Except.ok ⟨GoOutcome.success true, 2, 3⟩
    ∧ check_godaddy_domain (fun _ => Except.ok ⟨429, "TOO_MANY_REQUESTS", false⟩) 1
      = Except.ok ⟨GoOutcome.failure FailureReason.maxRetriesExceeded, 1, 1⟩ :=
  c2_retry_backoff true

/-- C4: a first response that is neither 200 nor rate limited makes the
check fail immediately: zero cooldown waits and exactly one request,
whatever `max_retries` allows. -/
theorem c4_non_retryable (transport : Nat → Except String HttpResponse)
    (response : HttpResponse) (max_retries : Nat)
    (hfirst : transport 0 = Except.ok response)
    (hstatus : response.status ≠ 200)
    (hbody : contains_too_many_requests response.text = false)
    (hretries : 0 < max_retries) :
    check_godaddy_domain transport max_retries
      = Except.ok
          ⟨GoOutcome.failure (FailureReason.rejected response.status response.text), 0, 1⟩ := by
  obtain ⟨k, rfl⟩ : ∃ k, max_retries = k + 1 := ⟨max_retries - 1, by omega⟩
  unfold check_godaddy_domain
  simp only [godaddy_attempts, hfirst]
  rw [if_neg hstatus, if_neg (by simp [hbody])]

theorem c4_witness :
    check_godaddy_domain (fun _ => Except.ok ⟨403, "ACCESS_DENIED", false⟩) 5
      = Except.ok ⟨GoOutcome.failure (FailureReason.rejected 403 "ACCESS_DENIED"), 0, 1⟩ :=
  c4_non_retryable (fun _ => Except.ok ⟨403, "ACCESS_DENIED", false⟩)
    ⟨403, "ACCESS_DENIED", false⟩ 5 rfl (by decide) (by decide) (by decide)

/-- C5: the pool built by `combine_lists` has no duplicates, is sorted
in ascending lexicographic order, and holds exactly the strings of the
input lists. -/
theorem c5_pool_dedup_sorted (lists : List (List String)) :
    (combine_lists lists).Nodup
    ∧ List.Sorted (fun a b : String => a ≤ b) (combine_lists lists)
    ∧ ∀ s : String, s ∈ combine_lists lists ↔ ∃ l ∈ lists, s ∈ l := by
  refine ⟨?_, List.sorted_insertionSort _ _, ?_⟩
  · exact (List.perm_insertionSort _ _).nodup_iff.mpr (List.nodup_dedup _)
  · intro s
    simp [combine_lists, List.mem_insertionSort, List.mem_dedup, List.mem_flatten]

theorem c5_pool_dedup_sorted_witness :
    (combine_lists [["b", "a"], ["c"], ["a", "d"]]).Nodup
    ∧ List.Sorted (fun a b : String => a ≤ b) (combine_lists [["b", "a"], ["c"], ["a", "d"]])
    ∧ ∀ s : String,
        s ∈ combine_lists [["b", "a"], ["c"], ["a", "d"]]
          ↔ ∃ l ∈ [["b", "a"], ["c"], ["a", "d"]], s ∈ l :=
  c5_pool_dedup_sorted [["b", "a"], ["c"], ["a", "d"]]

/-- C3: merging the record `{name Foo, available true}` twice yields a
store with exactly the one `"Foo"` record; merging
`{name Foo, available false}` afterwards updates that single record in
place without creating a duplicate; and a merge of any batch into any
store whose names are pairwise distinct leaves the names pairwise
distinct. -/
theorem c3_upsert_idempotence (store data : List CheckRecord) (h : unique_names store) :
    save_results_to_json
        (some (save_results_to_json (some []) [⟨"Foo", [("available", true)]⟩]))
        [⟨"Foo", [("available", true)]⟩]
      = [⟨"Foo", [("available", true)]⟩]
    ∧ save_results_to_json (some [⟨"Foo", [("available", true)]⟩])
        [⟨"Foo", [("available", false)]⟩]
      = [⟨"Foo", [("available", false)]⟩]
    ∧ unique_names (save_results_to_json (some store) data) :=
  ⟨by decide, by decide, unique_names_save data store h⟩

theorem c3_upsert_idempotence_witness :
    save_results_to_json
        (some (save_results_to_json (some []) [⟨"Foo", [("available", true)]⟩]))
        [⟨"Foo", [("available", true)]⟩]
      = [⟨"Foo", [("available", true)]⟩]
    ∧ save_results_to_json (some [⟨"Foo", [("available", true)]⟩])
        [⟨"Foo", [("available", false)]⟩]
      = [⟨"Foo", [("available", false)]⟩]
    ∧ unique_names
        (save_results_to_json (some [⟨"Bar", [("available", true)]⟩])
          [⟨"Foo", [("available", false)]⟩, ⟨"Foo", [("available", true)]⟩]) :=
  c3_upsert_idempotence [⟨"Bar", [("available", true)]⟩]
    [⟨"Foo", [("available", false)]⟩, ⟨"Foo", [("available", true)]⟩] (by decide)

/-- C6: `create_batches` partitions the candidate list into consecutive
contiguous batches of the given size, with the last batch truncated to
the remainder: the example evaluates as stated, the concatenation of
the batches gives the list back, every batch is non-empty and no longer
than the batch size, and every batch except possibly the last has
exactly the batch size. -/
theorem c6_batching (items : List String) (batch_size : Nat) (h : 0 < batch_size) :
    create_batches ["a", "b", "c", "d", "e"] 2 = [["a", "b"], ["c", "d"], ["e"]]
    ∧ (create_batches items batch_size).flatten = items
    ∧ (∀ b ∈ create_batches items batch_size, b ≠ [] ∧ b.length ≤ batch_size)
    ∧ ∀ b ∈ (create_batches items batch_size).dropLast, b.length = batch_size :=
  ⟨by simp [create_batches], create_batches_flatten items batch_size h,
    create_batches_mem items batch_size h, create_batches_dropLast items batch_size h⟩

theorem c6_batching_witness :
    create_batches ["a", "b", "c", "d", "e"] 2 = [["a", "b"], ["c", "d"], ["e"]]
    ∧ (create_batches ["a", "b", "c", "d", "e"] 2).flatten = ["a", "b", "c", "d", "e"]
    ∧ (∀ b ∈ create_batches ["a", "b", "c", "d", "e"] 2, b ≠ [] ∧ b.length ≤ 2)
    ∧ ∀ b ∈ (create_batches ["a", "b", "c", "d", "e"] 2).dropLast, b.length = 2 :=
  c6_batching ["a", "b", "c", "d", "e"] 2 (by decide)

/-- C7 counterexample: in the GoDaddy checker a network-level exception
during the first candidate's check is not caught — `check_domain_list`
aborts with the exception, records no outcome for that candidate, and
never processes the remaining candidate of the batch. -/
theorem c7_exception_aborts_batch :
    check_domain_list
        (fun domain _ =>
          if domain = "alpha.com" then Except.error "connection reset"
          else Except.ok ⟨200, "", true⟩)
        5 ["alpha.com", "bravo.com"]
      = Except.error "connection reset" := rfl

/-- C7 (amended): a non-200/non-rate-limit provider *response* is
recorded as that candidate's outcome and aborts nothing — whenever the
transport raises no exception, the GoDaddy batch loop returns one
outcome per candidate, in order; and the GitHub checker catches even
network-level exceptions per candidate, so its batch loop always
returns one outcome per username.  (Only a transport exception in the
GoDaddy checker, which has no `try/except`, aborts the batch.) -/
theorem c7_per_candidate_errors (transport : String → Nat → Except String HttpResponse)
    (batch : List String) (max_retries : Nat)
    (gh_transport : String → GithubTransport) (usernames : List String)
    (hok : ∀ domain n, ∃ r, transport domain n = Except.ok r) :
    (∃ results, check_domain_list transport max_retries batch = Except.ok results ∧
        results.map Prod.fst = batch)
    ∧ (check_username_list gh_transport usernames).map Prod.fst = usernames := by
  refine ⟨check_domain_list_ok transport max_retries hok batch, ?_⟩
  simp only [check_username_list, List.map_map]
  exact List.map_id usernames

theorem c7_per_candidate_errors_witness :
    (∃ results,
        check_domain_list (fun _ _ => Except.ok ⟨403, "ACCESS_DENIED", false⟩) 3
            ["alpha.com", "bravo.com"]
          = Except.ok results ∧
        results.map Prod.fst = ["alpha.com", "bravo.com"])
    ∧ (check_username_list
          (fun username =>
            if username = "taken" then GithubTransport.response 200 ""
            else GithubTransport.exn "timeout")
          ["taken", "newname"]).map Prod.fst
        = ["taken", "newname"] :=
  c7_per_candidate_errors (fun _ _ => Except.ok ⟨403, "ACCESS_DENIED", false⟩)
    ["alpha.com", "bravo.com"] 3
    (fun username =>
      if username = "taken" then GithubTransport.response 200 ""
      else GithubTransport.exn "timeout")
    ["taken", "newname"]
    (fun _ _ => ⟨⟨403, "ACCESS_DENIED", false⟩, rfl⟩)

/-- C8: a missing destination file is treated as an empty starting
collection, not an error — the merge behaves exactly as a merge into
the empty store, and (for incoming records with pairwise-distinct
names) the incoming records are all appended unchanged. -/
theorem c8_missing_file (data : List CheckRecord) (h : unique_names data) :
    save_results_to_json none data = save_results_to_json (some []) data
    ∧ save_results_to_json none data = data := by
  refine ⟨rfl, ?_⟩
  have step := save_append_of_unique data [] h
  simpa using step

theorem c8_missing_file_witness :
    save_results_to_json none
        [⟨"Foo", [("available", true)]⟩, ⟨"Bar", [("available", false)]⟩]
      = save_results_to_json (some [])
        [⟨"Foo", [("available", true)]⟩, ⟨"Bar", [("available", false)]⟩]
    ∧ save_results_to_json none
        [⟨"Foo", [("available", true)]⟩, ⟨"Bar", [("available", false)]⟩]
      = [⟨"Foo", [("available", true)]⟩, ⟨"Bar", [("available", false)]⟩] :=
  c8_missing_file [⟨"Foo", [("available", true)]⟩, ⟨"Bar", [("available", false)]⟩]
    (by decide)

/-- C9: with a limit given, the pipeline entry point truncates the host
list to its first `limit` elements before building domains and batches,
so the checks performed across all batches are exactly the prepared
domain list and number `min limit (number of hosts) * (number of domain
endings)`. -/
theorem c9_limit_truncation (host_names endings : List String) (limit batch_size : Nat)
    (hbs : 0 < batch_size) (hend : endings ≠ []) :
    (main_batches host_names (some endings) batch_size (some limit)).flatten
      = main_check_list host_names (some endings) (some limit)
    ∧ ((main_batches host_names (some endings) batch_size (some limit)).flatten).length
      = min limit host_names.length * endings.length := by
  have h1 : (main_batches host_names (some endings) batch_size (some limit)).flatten
      = main_check_list host_names (some endings) (some limit) :=
    create_batches_flatten _ _ hbs
  refine ⟨h1, ?_⟩
  rw [h1]
  have he : (if endings.isEmpty then ["com"] else endings) = endings := by
    cases endings with
    | nil => exact absurd rfl hend
    | cons a l => rfl
  have h2 : main_check_list host_names (some endings) (some limit)
      = get_domain_list (host_names.take limit) (some endings) := by
    simp only [main_check_list, he]
  rw [h2, get_domain_list_length, List.length_take]

theorem c9_limit_truncation_witness :
    (main_batches ["alpha", "bravo", "charlie"] (some ["com", "org"]) 2 (some 2)).flatten
      = main_check_list ["alpha", "bravo", "charlie"] (some ["com", "org"]) (some 2)
    ∧ ((main_batches ["alpha", "bravo", "charlie"] (some ["com", "org"]) 2
        (some 2)).flatten).length
      = min 2 3 * 2 :=
  c9_limit_truncation ["alpha", "bravo", "charlie"] ["com", "org"] 2 2
    (by decide) (by decide)

/-- C10: the merge preserves key uniqueness without establishing it —
merging any batch (even one repeating a name) into any store with
pairwise-distinct names leaves the names pairwise distinct, a repeated
incoming name updates the record appended earlier in the same merge
rather than appending a second one, but a store that already holds
duplicate names keeps its duplicates: only the first match is updated
and the result still has a repeated name. -/
theorem c10_uniqueness_preserved_not_established
    (store data : List CheckRecord) (h : unique_names store) :
    unique_names (save_results_to_json (some store) data)
    ∧ save_results_to_json (some [])
        [⟨"Foo", [("available", true)]⟩, ⟨"Foo", [("available", false)]⟩]
      = [⟨"Foo", [("available", false)]⟩]
    ∧ save_results_to_json
        (some [⟨"Foo", [("available", true)]⟩, ⟨"Foo", [("available", true)]⟩])
        [⟨"Foo", [("available", false)]⟩]
      = [⟨"Foo", [("available", false)]⟩, ⟨"Foo", [("available", true)]⟩]
    ∧ ¬ unique_names [⟨"Foo", [("available", false)]⟩, ⟨"Foo", [("available", true)]⟩] :=
  ⟨unique_names_save data store h, by decide, by decide, by decide⟩

theorem c10_uniqueness_preserved_witness :
    unique_names
      (save_results_to_json (some [⟨"Baz", [("available", true)]⟩])
        [⟨"Foo", [("available", true)]⟩, ⟨"Foo", [("available", false)]⟩])
    ∧ save_results_to_json (some [])
        [⟨"Foo", [("available", true)]⟩, ⟨"Foo", [("available", false)]⟩]
      = [⟨"Foo", [("available", false)]⟩]
    ∧ save_results_to_json
        (some [⟨"Foo", [("available", true)]⟩, ⟨"Foo", [("available", true)]⟩])
        [⟨"Foo", [("available", false)]⟩]
      = [⟨"Foo", [("available", false)]⟩, ⟨"Foo", [("available", true)]⟩]
    ∧ ¬ unique_names [⟨"Foo", [("available", false)]⟩, ⟨"Foo", [("available", true)]⟩] :=
  c10_uniqueness_preserved_not_established [⟨"Baz", [("available", true)]⟩]
    [⟨"Foo", [("available", true)]⟩, ⟨"Foo", [("available", false)]⟩] (by decide)
